import Mathlib

/-!
Shallow embedding of `main.go` of the cloudflare-stream-exporter repository.

The program is a Prometheus exporter: it periodically lists Cloudflare
accounts, runs a GraphQL streaming-analytics query per account, averages the
per-bucket `minutesViewed` counts over the reported buckets, and publishes
the average as a gauge labeled by the account name.

Modelling choices, each noted at the definition it concerns:
* Go `uint64` values are `Nat` together with the reinterpretation
  `intOfUInt64` (`% 2^64`, then two's-complement) at the point where the
  source converts them with `int(...)`.
* Go `int` (64-bit) arithmetic wraps; `wrapInt` is the canonical
  representative in `[-2^63, 2^63)` and additions in the source are
  modelled with `wrapInt` applied to the exact sum.
* Go `float64` results are modelled by `GoFloat`: exact rationals for
  finite values, plus `nan`/`posInf`/`negInf` for the non-finite results of
  division by zero.  Divisions in the relevant range are exact in `float64`
  only up to rounding; the spec's ε-tolerance reading is captured by the
  exact rational value.
* Network calls (`cloudflare.NewWithAPIToken`, `api.Accounts`, the GraphQL
  `Run`) are oracles passed as parameters: the embedding quantifies over
  their results.
* `log.Fatal` (logrus) logs and then exits the process with status 1; it is
  modelled by explicit outcome constructors carrying the logged cause.
-/

namespace CFExporter

/-- The modulus `2^64` of Go's 64-bit integer types. -/
def W64 : Nat := 2 ^ 64

/-- The bound `2^63`: first value outside Go's `int64` (and 64-bit `int`) range. -/
def H63 : Nat := 2 ^ 63

/-- Go conversion `int(u)` of a `uint64` value `u`: reduce modulo `2^64`
and reinterpret in two's complement (source line `sum += int(b.Sum.MinutesViewed)`). -/
def intOfUInt64 (u : Nat) : Int :=
  if u % W64 < H63 then ((u % W64 : Nat) : Int) else ((u % W64 : Nat) : Int) - (W64 : Int)

/-- Canonical two's-complement representative of a 64-bit Go `int`:
the unique value in `[-2^63, 2^63)` congruent mod `2^64`. -/
def wrapInt (x : Int) : Int :=
  (x + (H63 : Int)) % (W64 : Int) - (H63 : Int)

/-- Go 64-bit `int` addition (wraps on overflow, defined behavior in Go). -/
def goAddInt (x y : Int) : Int := wrapInt (x + y)

/-- Go `float64` values: finite values as exact rationals, plus the
non-finite results that Go float division by zero produces. -/
inductive GoFloat where
  | val : ℚ → GoFloat
  | nan : GoFloat
  | posInf : GoFloat
  | negInf : GoFloat
  deriving DecidableEq, Repr

/-- Go expression `float64(x) / float64(n)`: for `n = 0` Go does not fault
but yields `NaN` (when `x = 0`) or `±Inf`; otherwise the exact quotient. -/
def goFloatDiv (x : Int) (n : Nat) : GoFloat :=
  if n = 0 then
    if x = 0 then GoFloat.nan
    else if 0 < x then GoFloat.posInf else GoFloat.negInf
  else GoFloat.val ((x : ℚ) / (n : ℚ))

/-- One time bucket of the GraphQL response: struct with
`Sum.MinutesViewed : uint64` and `Dimensions.Ts : time.Time`
(the timestamp is opaque to the program; it is carried as an integer). -/
structure StreamBucket where
  minutesViewed : Nat
  ts : Int
  deriving DecidableEq, Repr

/-- `cfResponseStreamingAnalyticsResp`: one viewer-account entry,
field `AccountStreamMinutesViewedAdaptiveGroupsSum` (JSON
`streamMinutesViewedAdaptiveGroups`). -/
structure cfResponseStreamingAnalyticsResp where
  AccountStreamMinutesViewedAdaptiveGroupsSum : List StreamBucket
  deriving DecidableEq, Repr

/-- `cfResponseStreamingAnalytics`: the GraphQL response,
`Viewer.Accounts` list. -/
structure cfResponseStreamingAnalytics where
  ViewerAccounts : List cfResponseStreamingAnalyticsResp
  deriving DecidableEq, Repr

/-- `cloudflare.Account`: identifier and display name. -/
structure Account where
  ID : String
  Name : String
  deriving DecidableEq, Repr

/-- The loop `sum := 0; for _, b := range bs { sum += int(b.Sum.MinutesViewed) }`
from `fetchStreamingAnalytics`: left fold with Go `int` wrapping addition of
the `uint64 → int` converted counts. -/
def streamSum (bs : List StreamBucket) : Int :=
  bs.foldl (fun s b => goAddInt s (intOfUInt64 b.minutesViewed)) 0

/-- The exact (unbounded) total of the minutes-viewed counts of a bucket
list, for comparison with the wrapped `streamSum`. -/
def trueSumMinutes (bs : List StreamBucket) : Nat :=
  (bs.map (fun b => b.minutesViewed)).sum

/-- The value passed to `Set` for one viewer-account entry:
`float64(sum) / float64(len(a.AccountStreamMinutesViewedAdaptiveGroupsSum))`. -/
def publishedValue (bs : List StreamBucket) : GoFloat :=
  goFloatDiv (streamSum bs) bs.length

/-- The metrics registry (the `cloudflare_streaming_minutes_viewed` GaugeVec):
a map from the `account` label to the current gauge value. -/
abbrev Registry := String → Option GoFloat

/-- `cfStreamingMinutesViewed.With(prometheus.Labels{"account": label}).Set(v)`:
upsert of one labeled gauge value, last write wins. -/
def setGauge (reg : Registry) (label : String) (v : GoFloat) : Registry :=
  fun l => if l = label then some v else reg l

/-- `fetchStreamingAnalytics(account)` given the oracle result `r` of
`fetchStreamingTotals` (`none` models the error return, in which case the
error is logged and the function returns without publishing): the list of
(label, value) pairs passed to `Set`, one per viewer-account entry, in order. -/
def fetchStreamingAnalytics (account : Account)
    (r : Option cfResponseStreamingAnalytics) : List (String × GoFloat) :=
  match r with
  | none => []
  | some resp =>
      resp.ViewerAccounts.map
        (fun a => (account.Name,
          publishedValue a.AccountStreamMinutesViewedAdaptiveGroupsSum))

/-- `contains(s, e)`: linear scan for string `e` in slice `s`. -/
def contains (s : List String) (e : String) : Bool :=
  match s with
  | [] => false
  | a :: rest => if a = e then true else contains rest e

/-- Go `strings.Split(s, ",")` on the underlying character list: the
substrings between commas.  In particular `Split("", ",") = [""]`. -/
def splitCommaChars : List Char → List (List Char)
  | [] => [[]]
  | c :: rest =>
      if c = ',' then [] :: splitCommaChars rest
      else
        match splitCommaChars rest with
        | [] => [[c]]
        | h :: t => (c :: h) :: t

/-- Go `strings.Split(s, ",")` as used in `fetchMetrics` on
`cfIncludeAccounts`. -/
def goSplitComma (s : String) : List String :=
  (splitCommaChars s.data).map (fun l => String.mk l)

/-- The guard of the `fetchMetrics` loop with `accountsToHandle :=
strings.Split(cfIncludeAccounts, ",")`: an account is skipped (`continue`)
iff `len(accountsToHandle) > 0 && !contains(accountsToHandle, a.ID)`;
this predicate is true iff the account is NOT skipped. -/
def includeFilterPasses (includeStr : String) (a : Account) : Bool :=
  !(decide (0 < (goSplitComma includeStr).length)
      && !contains (goSplitComma includeStr) a.ID)

/-- The body of the `fetchMetrics` loop, restricted to which accounts reach
`fetchStreamingAnalytics`: exactly those passing the inclusion guard, in
order. -/
def fetchMetricsProcessed (includeStr : String) (accounts : List Account) :
    List Account :=
  accounts.filter (includeFilterPasses includeStr)

/-- Processing of one account inside the cycle: run
`fetchStreamingAnalytics` (with the fetch oracle keyed by account ID) and
apply each resulting `Set` to the registry. -/
def accountStep (fetch : String → Option cfResponseStreamingAnalytics)
    (reg : Registry) (a : Account) : Registry :=
  (fetchStreamingAnalytics a (fetch a.ID)).foldl
    (fun r p => setGauge r p.1 p.2) reg

/-- One full `fetchMetrics` cycle after account enumeration: fold
`accountStep` over the accounts that pass the inclusion filter. -/
def runCycle (includeStr : String) (accounts : List Account)
    (fetch : String → Option cfResponseStreamingAnalytics)
    (reg : Registry) : Registry :=
  (fetchMetricsProcessed includeStr accounts).foldl (accountStep fetch) reg

/-- Possible outcomes of `fetchAccounts()`: a successful account list, a
`log.Fatal` (logs the cause, then the process exits with status 1), or the
nil-pointer dereference of calling `api.Accounts` on a client that was
never constructed. -/
inductive FetchAccountsOutcome where
  | ok : List Account → FetchAccountsOutcome
  | fatalExit : String → FetchAccountsOutcome
  | nilDereference : FetchAccountsOutcome
  deriving DecidableEq, Repr

/-- Process exit status implied by a `fetchAccounts` outcome: `log.Fatal`
exits with status 1; a successful return does not exit. -/
def FetchAccountsOutcome.exitCode : FetchAccountsOutcome → Option Nat
  | .fatalExit _ => some 1
  | _ => none

/-- `fetchAccounts()` with its two network calls as oracles.
Source: `api` stays nil unless `len(cfgCfAPIToken) > 0`; an error from
`cloudflare.NewWithAPIToken` (only possible when it was called) is
`log.Fatal`ed; then `api.Accounts` runs — on a nil `api` that is a nil
dereference — and an error from it is `log.Fatal`ed. -/
def fetchAccounts (token : String)
    (newAPI : Except String Unit)
    (accountsCall : Except String (List Account)) : FetchAccountsOutcome :=
  let api : Option Unit :=
    if 0 < token.length then newAPI.toOption else none
  let errNew : Option String :=
    if 0 < token.length then
      match newAPI with
      | .error e => some e
      | .ok _ => none
    else none
  match errNew with
  | some e => .fatalExit e
  | none =>
      match api with
      | none => .nilDereference
      | some _ =>
          match accountsCall with
          | .error e => .fatalExit e
          | .ok a => .ok a

/-- Events of `main()` in source order, as far as the claims need them. -/
inductive MainEvent where
  | flagParse
  | fatalMissingToken
  | setFormatter
  | schedulerLoopStart
  | serveHTTP
  deriving DecidableEq, Repr

/-- The startup path of `main()`: parse flags; if the token is empty,
`log.Fatal` (log, exit 1) before anything else; otherwise install the log
formatter, start the scheduler goroutine, and serve HTTP. -/
def mainTrace (token : String) : List MainEvent :=
  [MainEvent.flagParse] ++
    (if 0 < token.length then
      [MainEvent.setFormatter, MainEvent.schedulerLoopStart, MainEvent.serveHTTP]
    else [MainEvent.fatalMissingToken])

/-- `strings.HasPrefix(p, "/")`: whether the first character is a slash. -/
def startsWithSlash (p : String) : Bool :=
  match p.data with
  | [] => false
  | c :: _ => c = '/'

/-- The metrics-path normalization in `main()`:
`if !strings.HasPrefix(cfgMetricsPath, "/") { cfgMetricsPath = "/" + cfgMetricsPath }`. -/
def normalizeMetricsPath (p : String) : String :=
  if startsWithSlash p then p else "/" ++ p

/-! ## Helper lemmas -/

lemma wrapInt_eq_self {x : Int} (h1 : -(H63 : Int) ≤ x) (h2 : x < (H63 : Int)) :
    wrapInt x = x := by
  unfold wrapInt
  have hW : (W64 : Int) = 2 * (H63 : Int) := by norm_num [W64, H63]
  have h0 : 0 ≤ x + (H63 : Int) := by linarith
  have h3 : x + (H63 : Int) < (W64 : Int) := by rw [hW]; linarith
  rw [Int.emod_eq_of_lt h0 h3]
  ring

lemma intOfUInt64_of_lt {u : Nat} (h : u < H63) : intOfUInt64 u = (u : Int) := by
  have hlt : u < W64 := lt_trans h (by norm_num [H63, W64])
  unfold intOfUInt64
  rw [Nat.mod_eq_of_lt hlt]
  simp [h]

lemma trueSumMinutes_cons (b : StreamBucket) (rest : List StreamBucket) :
    trueSumMinutes (b :: rest) = b.minutesViewed + trueSumMinutes rest := by
  simp [trueSumMinutes]

lemma streamSum_foldl_eq (bs : List StreamBucket) :
    ∀ acc : Nat, acc + trueSumMinutes bs < H63 →
      bs.foldl (fun s b => goAddInt s (intOfUInt64 b.minutesViewed)) (acc : Int)
        = ((acc + trueSumMinutes bs : Nat) : Int) := by
  induction bs with
  | nil =>
      intro acc _
      simp [trueSumMinutes]
  | cons b rest ih =>
      intro acc h
      rw [trueSumMinutes_cons] at h
      have hb : b.minutesViewed < H63 := by omega
      have hstep : goAddInt (acc : Int) (intOfUInt64 b.minutesViewed)
          = ((acc + b.minutesViewed : Nat) : Int) := by
        rw [intOfUInt64_of_lt hb]
        unfold goAddInt
        rw [← Nat.cast_add]
        refine wrapInt_eq_self ?_ ?_
        · exact le_trans (by norm_num [H63]) (Int.natCast_nonneg _)
        · exact_mod_cast (by omega : acc + b.minutesViewed < H63)
      simp only [List.foldl_cons]
      rw [hstep, ih (acc + b.minutesViewed) (by omega)]
      rw [trueSumMinutes_cons]
      congr 1
      omega

lemma streamSum_eq_trueSum {bs : List StreamBucket} (h : trueSumMinutes bs < H63) :
    streamSum bs = (trueSumMinutes bs : Int) := by
  have h0 := streamSum_foldl_eq bs 0 (by simpa using h)
  simpa [streamSum] using h0

/-- The published gauge value is the exact average whenever the true total
of the counts stays below `2^63` (so no conversion or addition wraps). -/
lemma publishedValue_exact {bs : List StreamBucket} (hne : bs ≠ [])
    (h : trueSumMinutes bs < H63) :
    publishedValue bs = GoFloat.val ((trueSumMinutes bs : ℚ) / (bs.length : ℚ)) := by
  have hlen : bs.length ≠ 0 := fun h0 => hne (List.length_eq_zero.mp h0)
  unfold publishedValue goFloatDiv
  rw [streamSum_eq_trueSum h]
  simp [hlen]

lemma publishedValue_nil : publishedValue [] = GoFloat.nan := by decide

lemma foldl_setGauge_apply_ne (ps : List (String × GoFloat)) (reg : Registry)
    {l : String} (h : ∀ p ∈ ps, l ≠ p.1) :
    ps.foldl (fun r p => setGauge r p.1 p.2) reg l = reg l := by
  induction ps generalizing reg with
  | nil => rfl
  | cons p rest ih =>
      simp only [List.foldl_cons]
      rw [ih _ (fun q hq => h q (List.mem_cons_of_mem _ hq))]
      unfold setGauge
      simp [h p (List.mem_cons_self _ _)]

/-- `fetchStreamingAnalytics` only ever publishes under the processed
account's own name label, so any other label is untouched by its step. -/
lemma accountStep_apply_ne (fetch : String → Option cfResponseStreamingAnalytics)
    (reg : Registry) (a : Account) {l : String} (hl : l ≠ a.Name) :
    accountStep fetch reg a l = reg l := by
  apply foldl_setGauge_apply_ne
  intro p hp
  unfold fetchStreamingAnalytics at hp
  cases hr : fetch a.ID with
  | none => rw [hr] at hp; simp at hp
  | some resp =>
      rw [hr] at hp
      simp only [List.mem_map] at hp
      obtain ⟨va, _, hva⟩ := hp
      rw [← hva]
      simpa using hl

/-! ## Claims -/

/-- C1: the spec says an empty `include_accounts` string means no
filtering, so every fetched account is processed.  The code disagrees:
`strings.Split("", ",")` is `[""]`, so the `len(accountsToHandle) > 0`
guard is active and `contains([""], a.ID)` fails for every account with a
non-empty ID — the account `{ID:"A", Name:"Acme"}` is skipped and nothing
is processed.  This theorem evaluates the embedded code at that failing
input. -/
theorem claim_C1_empty_allowlist_skips_all :
    goSplitComma "" = [""] ∧
    contains (goSplitComma "") "A" = false ∧
    fetchMetricsProcessed "" [⟨"A", "Acme"⟩] = [] := by
  decide

/-- C2 (counterexample): the claim quantifies over every non-empty bucket
sequence, but for the single bucket with `minutesViewed = 2^63` the
`uint64 → int` conversion wraps and the published value is `-(2^63)`, not
the sum `2^63` divided by the count `1`. -/
theorem claim_C2_counterexample :
    publishedValue [⟨2 ^ 63, 0⟩] = GoFloat.val (-(2 ^ 63 : ℚ)) ∧
    trueSumMinutes [⟨2 ^ 63, 0⟩] = 2 ^ 63 ∧
    ([(⟨2 ^ 63, 0⟩ : StreamBucket)].length = 1) ∧
    GoFloat.val (-(2 ^ 63 : ℚ)) ≠ GoFloat.val ((2 ^ 63 : ℚ) / 1) := by
  have h : streamSum [⟨2 ^ 63, 0⟩] = -(2 ^ 63) := by decide
  refine ⟨?_, by decide, by decide, ?_⟩
  · unfold publishedValue goFloatDiv
    rw [h]
    norm_num
  · simp only [ne_eq, GoFloat.val.injEq]
    norm_num

/-- C2 (amended): for every non-empty sequence of bucket samples whose
total minutes-viewed count stays below `2^63` (so neither the `uint64 →
int` conversion nor the wrapping `int` accumulation overflows), the
published gauge value equals the exact sum of the counts divided by the
number of samples. -/
theorem claim_C2_avg_is_sum_div_count (bs : List StreamBucket)
    (hne : bs ≠ []) (hfit : trueSumMinutes bs < 2 ^ 63) :
    publishedValue bs = GoFloat.val ((trueSumMinutes bs : ℚ) / (bs.length : ℚ)) :=
  publishedValue_exact hne hfit

/-- C2 witness: for the spec's concrete instance, two buckets with counts
10 and 20, the published value is 15. -/
theorem claim_C2_witness :
    publishedValue [⟨10, 0⟩, ⟨20, 0⟩] = GoFloat.val 15 := by
  have h := claim_C2_avg_is_sum_div_count [⟨10, 0⟩, ⟨20, 0⟩] (by decide) (by decide)
  have h30 : trueSumMinutes [⟨10, 0⟩, ⟨20, 0⟩] = 30 := by decide
  rw [h, h30]
  norm_num

/-- C3 (counterexample): no non-zero validation of the bucket count
happens before the division.  A successful response whose single
viewer-account entry has zero buckets is aggregated anyway: the division
runs with denominator 0 and the published value is `float64` `0/0 = NaN`,
so the division-by-zero branch is reachable, contrary to the claim. -/
theorem claim_C3_counterexample :
    fetchStreamingAnalytics ⟨"1", "Acme"⟩ (some ⟨[⟨[]⟩]⟩)
      = [("Acme", GoFloat.nan)] ∧
    (⟨[]⟩ : cfResponseStreamingAnalyticsResp).AccountStreamMinutesViewedAdaptiveGroupsSum.length = 0 := by
  decide

/-- C3 (amended): the aggregation step performs no validation of the
bucket count: every viewer-account entry of a successful response is
aggregated and published, including entries with zero buckets, for which
the division executes with denominator zero and publishes `NaN`
(Go `float64` `0/0`). -/
theorem claim_C3_no_zero_bucket_validation (acct : Account)
    (r : cfResponseStreamingAnalytics) :
    (fetchStreamingAnalytics acct (some r)).length = r.ViewerAccounts.length ∧
    ∀ va ∈ r.ViewerAccounts,
      va.AccountStreamMinutesViewedAdaptiveGroupsSum = [] →
        (acct.Name, GoFloat.nan) ∈ fetchStreamingAnalytics acct (some r) := by
  constructor
  · simp [fetchStreamingAnalytics]
  · intro va hva hnil
    unfold fetchStreamingAnalytics
    simp only [List.mem_map]
    exact ⟨va, hva, by rw [hnil, publishedValue_nil]⟩

/-- C3 witness: in a response with one empty viewer-account entry and one
with a bucket, both entries are aggregated and the `NaN` pair is
published. -/
theorem claim_C3_witness :
    (fetchStreamingAnalytics ⟨"1", "Acme"⟩
        (some ⟨[⟨[]⟩, ⟨[⟨10, 0⟩]⟩]⟩)).length = 2 ∧
    ("Acme", GoFloat.nan) ∈
      fetchStreamingAnalytics ⟨"1", "Acme"⟩ (some ⟨[⟨[]⟩, ⟨[⟨10, 0⟩]⟩]⟩) := by
  have h := claim_C3_no_zero_bucket_validation ⟨"1", "Acme"⟩ ⟨[⟨[]⟩, ⟨[⟨10, 0⟩]⟩]⟩
  exact ⟨h.1, h.2 ⟨[]⟩ (by simp) rfl⟩

/-- C4: with the allow-list `"A,C"` and fetched accounts `{A, B, C}`,
exactly A and C pass the inclusion guard (in order), B is never queried,
and for every fetch-oracle behavior and every prior registry state the
registry entry under B's label is untouched by the cycle. -/
theorem claim_C4_allowlist_exact :
    fetchMetricsProcessed "A,C" [⟨"A", "NameA"⟩, ⟨"B", "NameB"⟩, ⟨"C", "NameC"⟩]
      = [⟨"A", "NameA"⟩, ⟨"C", "NameC"⟩] ∧
    (⟨"B", "NameB"⟩ : Account) ∉
      fetchMetricsProcessed "A,C" [⟨"A", "NameA"⟩, ⟨"B", "NameB"⟩, ⟨"C", "NameC"⟩] ∧
    ∀ (fetch : String → Option cfResponseStreamingAnalytics) (reg : Registry),
      runCycle "A,C" [⟨"A", "NameA"⟩, ⟨"B", "NameB"⟩, ⟨"C", "NameC"⟩] fetch reg "NameB"
        = reg "NameB" := by
  have hp : fetchMetricsProcessed "A,C"
      [⟨"A", "NameA"⟩, ⟨"B", "NameB"⟩, ⟨"C", "NameC"⟩]
      = [⟨"A", "NameA"⟩, ⟨"C", "NameC"⟩] := by decide
  refine ⟨hp, by decide, ?_⟩
  intro fetch reg
  unfold runCycle
  rw [hp]
  simp only [List.foldl_cons, List.foldl_nil]
  rw [accountStep_apply_ne fetch _ _ (by decide),
    accountStep_apply_ne fetch _ _ (by decide)]

/-- C4 witness: the untouched-registry conjunct applied at a concrete
fetch oracle and the empty registry. -/
theorem claim_C4_witness :
    runCycle "A,C" [⟨"A", "NameA"⟩, ⟨"B", "NameB"⟩, ⟨"C", "NameC"⟩]
      (fun _ => some ⟨[⟨[⟨10, 0⟩]⟩]⟩) (fun _ => none) "NameB" = none :=
  claim_C4_allowlist_exact.2.2 (fun _ => some ⟨[⟨[⟨10, 0⟩]⟩]⟩) (fun _ => none)

/-- C5: when the analytics fetch for one account fails (the oracle returns
`none`), that account's processing step leaves the whole registry
unchanged — its gauge is neither cleared nor updated — and the cycle's
final registry is exactly the one of the same cycle without that account,
so every other (in particular every subsequent) account is still
processed and nothing aborts. -/
theorem claim_C5_fetch_failure_isolated (includeStr : String)
    (pre post : List Account) (a : Account)
    (fetch : String → Option cfResponseStreamingAnalytics) (reg : Registry)
    (hfail : fetch a.ID = none) :
    accountStep fetch reg a = reg ∧
    runCycle includeStr (pre ++ a :: post) fetch reg
      = runCycle includeStr (pre ++ post) fetch reg := by
  have hid : ∀ r : Registry, accountStep fetch r a = r := by
    intro r
    simp [accountStep, fetchStreamingAnalytics, hfail]
  refine ⟨hid reg, ?_⟩
  unfold runCycle fetchMetricsProcessed
  rw [List.filter_append, List.filter_append, List.filter_cons]
  by_cases hpa : includeFilterPasses includeStr a
  · rw [if_pos hpa, List.foldl_append, List.foldl_append, List.foldl_cons, hid]
  · rw [if_neg hpa]

/-- C5 witness: with one account whose fetch fails, the cycle leaves the
empty registry as it was and equals the cycle over no accounts. -/
theorem claim_C5_witness :
    accountStep (fun _ => none) (fun _ => none) ⟨"A", "Acme"⟩ = (fun _ => none) ∧
    runCycle "" ([] ++ (⟨"A", "Acme"⟩ :: [])) (fun _ => none) (fun _ => none)
      = runCycle "" ([] ++ []) (fun _ => none) (fun _ => none) :=
  claim_C5_fetch_failure_isolated "" [] [] ⟨"A", "Acme"⟩
    (fun _ => none) (fun _ => none) rfl

/-- C6: when the client was constructed (non-empty token, successful
constructor) and the account-listing call returns an error, `fetchAccounts`
reaches `log.Fatal(err)`: the cause is logged and the process exits with
status 1 (non-zero); there is no retry or continuation path. -/
theorem claim_C6_enumeration_error_fatal (token : String) (e : String)
    (htok : 0 < token.length) :
    fetchAccounts token (Except.ok ()) (Except.error e)
      = FetchAccountsOutcome.fatalExit e ∧
    (fetchAccounts token (Except.ok ()) (Except.error e)).exitCode = some 1 := by
  unfold fetchAccounts
  simp [htok, Except.toOption, FetchAccountsOutcome.exitCode]

/-- C6 witness: a concrete token and listing error. -/
theorem claim_C6_witness :
    0 < ("tok" : String).length ∧
    fetchAccounts "tok" (Except.ok ()) (Except.error "boom")
      = FetchAccountsOutcome.fatalExit "boom" :=
  ⟨by decide, (claim_C6_enumeration_error_fatal "tok" "boom" (by decide)).1⟩

/-- C7: with an empty `cf_api_token` after flag parsing, `main` hits
`log.Fatal` immediately after the parse — the trace is exactly
flag-parse then fatal, and neither the scheduler goroutine nor the HTTP
server is ever started. -/
theorem claim_C7_missing_token_fatal (token : String) (h : token.length = 0) :
    mainTrace token = [MainEvent.flagParse, MainEvent.fatalMissingToken] ∧
    MainEvent.schedulerLoopStart ∉ mainTrace token ∧
    MainEvent.serveHTTP ∉ mainTrace token := by
  have h0 : ¬ 0 < token.length := by omega
  unfold mainTrace
  simp [h0]

/-- C7 witness: the empty token. -/
theorem claim_C7_witness :
    mainTrace "" = [MainEvent.flagParse, MainEvent.fatalMissingToken] ∧
    MainEvent.schedulerLoopStart ∉ mainTrace "" ∧
    MainEvent.serveHTTP ∉ mainTrace "" :=
  claim_C7_missing_token_fatal "" rfl

/-- C8: the served metrics path always starts with a slash — a configured
path already starting with `"/"` is kept unchanged, any other path gets
`"/"` prepended — and in particular `"metrics"` becomes `"/metrics"`. -/
theorem claim_C8_metrics_path_normalization (p : String) :
    startsWithSlash (normalizeMetricsPath p) = true ∧
    (startsWithSlash p = true → normalizeMetricsPath p = p) ∧
    (startsWithSlash p = false → normalizeMetricsPath p = "/" ++ p) ∧
    normalizeMetricsPath "metrics" = "/metrics" := by
  refine ⟨?_, fun h => by simp [normalizeMetricsPath, h],
    fun h => by simp [normalizeMetricsPath, h], by decide⟩
  unfold normalizeMetricsPath
  by_cases h : startsWithSlash p
  · simp [h]
  · rw [if_neg h]
    unfold startsWithSlash
    rw [String.data_append]
    rfl

/-- C8 witness: the path `"metrics"` does not start with a slash and is
normalized to `"/metrics"`, which does. -/
theorem claim_C8_witness :
    startsWithSlash (normalizeMetricsPath "metrics") = true ∧
    normalizeMetricsPath "metrics" = "/" ++ "metrics" :=
  ⟨(claim_C8_metrics_path_normalization "metrics").1,
   (claim_C8_metrics_path_normalization "metrics").2.2.1 (by decide)⟩

/-- C9: with a non-empty token, `fetchAccounts` can never reach the call
of `Accounts` on a nil client, whatever the two network oracles return;
with an empty token the client is never constructed, the `err` check does
not guard it, and the call dereferences nil. -/
theorem claim_C9_nil_client_guarded (token : String)
    (newAPI : Except String Unit) (accountsCall : Except String (List Account))
    (htok : 0 < token.length) :
    fetchAccounts token newAPI accountsCall ≠ FetchAccountsOutcome.nilDereference ∧
    ∀ (newAPI2 : Except String Unit) (ac2 : Except String (List Account)),
      fetchAccounts "" newAPI2 ac2 = FetchAccountsOutcome.nilDereference := by
  constructor
  · unfold fetchAccounts
    cases newAPI with
    | error e => simp [htok, Except.toOption]
    | ok u =>
        cases accountsCall with
        | error e => simp [htok, Except.toOption]
        | ok a => simp [htok, Except.toOption]
  · intro newAPI2 ac2
    unfold fetchAccounts
    simp

/-- C9 witness: concrete oracles on both sides of the token condition. -/
theorem claim_C9_witness :
    fetchAccounts "t" (Except.ok ()) (Except.ok [])
      ≠ FetchAccountsOutcome.nilDereference ∧
    fetchAccounts "" (Except.ok ()) (Except.ok [])
      = FetchAccountsOutcome.nilDereference :=
  ⟨(claim_C9_nil_client_guarded "t" (Except.ok ()) (Except.ok []) (by decide)).1,
   (claim_C9_nil_client_guarded "t" (Except.ok ()) (Except.ok []) (by decide)).2
      (Except.ok ()) (Except.ok [])⟩

/-- C10 (counterexample): the claim's first part quantifies over all
sequences whose individual counts fit in the signed 64-bit range, but the
accumulating `int` sum itself wraps: for two buckets of `2^63 - 1` each —
both representable — the wrapped sum is `-2` and the published average is
`-1`, not the exact average `2^63 - 1`. -/
theorem claim_C10_counterexample :
    (2 ^ 63 - 1 : Nat) < 2 ^ 63 ∧
    publishedValue [⟨2 ^ 63 - 1, 0⟩, ⟨2 ^ 63 - 1, 0⟩] = GoFloat.val (-1) ∧
    trueSumMinutes [⟨2 ^ 63 - 1, 0⟩, ⟨2 ^ 63 - 1, 0⟩] = 18446744073709551614 ∧
    (18446744073709551614 : ℚ) / 2 = 2 ^ 63 - 1 ∧
    GoFloat.val (-1) ≠ GoFloat.val ((2 ^ 63 - 1 : ℚ)) := by
  have h : streamSum [⟨2 ^ 63 - 1, 0⟩, ⟨2 ^ 63 - 1, 0⟩] = -2 := by decide
  refine ⟨by norm_num, ?_, by decide, by norm_num, ?_⟩
  · unfold publishedValue goFloatDiv
    rw [h]
    norm_num
  · simp only [ne_eq, GoFloat.val.injEq]
    norm_num

/-- C10 (amended): the per-account sum is accumulated through the
`uint64 → int` two's-complement conversion and wrapping `int` addition.
Whenever the counts' exact total stays below `2^63` the published average
is the exact sum divided by the bucket count; but the conversion of a
count at or above `2^63` wraps modulo `2^64` (even a single such bucket
yields a negative published value), and the accumulated sum itself can
wrap even when every individual count is representable. -/
theorem claim_C10_wrapping_conversion :
    (∀ bs : List StreamBucket, bs ≠ [] → trueSumMinutes bs < 2 ^ 63 →
      publishedValue bs = GoFloat.val ((trueSumMinutes bs : ℚ) / (bs.length : ℚ))) ∧
    intOfUInt64 (2 ^ 63) = (2 ^ 63 : Int) - 2 ^ 64 ∧
    publishedValue [⟨2 ^ 63 + 5, 0⟩] = GoFloat.val (-(2 ^ 63 - 5 : ℚ)) ∧
    (-(2 ^ 63 - 5 : ℚ)) < 0 := by
  have h : streamSum [⟨2 ^ 63 + 5, 0⟩] = -(2 ^ 63 - 5) := by decide
  refine ⟨fun bs hne hfit => publishedValue_exact hne hfit, by decide, ?_, by norm_num⟩
  unfold publishedValue goFloatDiv
  rw [h]
  norm_num

/-- C10 witness: the exact-average part applied to two small buckets. -/
theorem claim_C10_witness :
    publishedValue [⟨3, 0⟩, ⟨5, 0⟩] = GoFloat.val 4 := by
  have h := claim_C10_wrapping_conversion.1 [⟨3, 0⟩, ⟨5, 0⟩] (by decide) (by decide)
  have h8 : trueSumMinutes [⟨3, 0⟩, ⟨5, 0⟩] = 8 := by decide
  rw [h, h8]
  norm_num

end CFExporter
